import Mathlib

/-!
# Verification of the O&M Asset Identifier matching core

Shallow embedding of `matcher.py` from the O-M-Asset-Identifier repository:
text-extraction fallback chain, regex-based signal parsing, candidate
scoring, batch orchestration, and the flat export table.

Conventions of the embedding:
* Python strings are `String`; text is manipulated through its `List Char`
  data to keep every operation kernel-computable.
* Dynamic Python dictionary values (asset registry cells, which after
  `pandas.DataFrame.to_dict` can be a string, `None`, a float `NaN` from a
  blank cell, or absent altogether) are modelled by `PyVal`.
* Python exceptions are modelled by `Except String`; a `.error` value is a
  raised exception carrying its message.
* The external fuzzy-similarity library call (`rapidfuzz.fuzz.token_set_ratio`)
  is not part of the repository; it is passed in as an abstract function
  `ratio : String → String → Nat` (its 0..100 result rounded to a natural
  number), so every theorem quantifies over the library's behaviour.
* The regular expressions of `matcher.py` are embedded by `RE`, a small
  backtracking matcher whose preference order (leftmost position, then
  alternative order, then greedy repetition) mirrors Python's `re` module.
-/

/-- A dynamic Python value as it occurs in an asset-registry row:
`vAbsent` models a missing key, `vNone` the value `None`, `vNan` a float
`NaN` (what pandas puts in a blank cell; truthy, not a string), `vStr` a
string. -/
inductive PyVal where
  | vAbsent
  | vNone
  | vNan
  | vStr (s : String)
deriving DecidableEq, Repr

/-- Python truthiness of a `PyVal` (an absent key is only ever tested via
`dict.get`, which yields a falsy default or `None`). -/
def pyTruthy : PyVal → Bool
  | .vAbsent => false
  | .vNone => false
  | .vNan => true
  | .vStr s => s != ""

/-- `row.get(key, default)`: the value if the key is present, else the default. -/
def pyGet (v d : PyVal) : PyVal :=
  match v with
  | .vAbsent => d
  | _ => v

/-- Python `str()` of a dynamic value (`str(None) = "None"`, `str(nan) = "nan"`). -/
def pyStr : PyVal → String
  | .vAbsent => ""
  | .vNone => "None"
  | .vNan => "nan"
  | .vStr s => s

/-- Python `\s` / `str.strip` whitespace (ASCII). -/
def pyIsSpaceChar (c : Char) : Bool :=
  c = ' ' || c = '\t' || c = '\n' || c = '\r' || c = '\x0b' || c = '\x0c'

/-- Drop the characters satisfying `p` from both ends of a character list. -/
def stripListBoth (p : Char → Bool) (cs : List Char) : List Char :=
  ((cs.dropWhile p).reverse.dropWhile p).reverse

/-- Python `str.strip()` (whitespace at both ends). -/
def pyStrip (s : String) : String :=
  ⟨stripListBoth pyIsSpaceChar s.data⟩

/-- Python `str.strip(chars)` for an explicit character set. -/
def pyStripChars (s : String) (chars : List Char) : String :=
  ⟨stripListBoth (fun c => chars.contains c) s.data⟩

/-- Python `str.upper()` (ASCII letters, as all extracted signals are ASCII). -/
def pyUpper (s : String) : String :=
  ⟨s.data.map Char.toUpper⟩

/-- Python `str.lower()`. -/
def pyLower (s : String) : String :=
  ⟨s.data.map Char.toLower⟩

/-- Does the character list `n` occur at the start of `h`? -/
def listStartsWith : List Char → List Char → Bool
  | [], _ => true
  | _ :: _, [] => false
  | a :: asx, b :: bs => a = b && listStartsWith asx bs

/-- Does the character list `n` occur contiguously anywhere inside `h`? -/
def isSubChain (n : List Char) : List Char → Bool
  | [] => n.isEmpty
  | b :: bs => listStartsWith n (b :: bs) || isSubChain n bs

/-- Python substring test `a in b`. -/
def pyInStr (a b : String) : Bool :=
  isSubChain a.data b.data

/-- Split a character list at newline characters, keeping empty segments. -/
def splitOnNL : List Char → List (List Char)
  | [] => [[]]
  | c :: t =>
    if c = '\n' then [] :: splitOnNL t
    else
      match splitOnNL t with
      | h :: r => (c :: h) :: r
      | [] => [[c]]

/-- Python `str.splitlines()` for newline-separated text: no trailing empty
line when the text ends with a newline, and `[]` on the empty string. -/
def pySplitlines (s : String) : List String :=
  if s.data.isEmpty then []
  else
    let parts := splitOnNL s.data
    let parts := if s.data.getLast? = some '\n' then parts.dropLast else parts
    parts.map (fun cs => ⟨cs⟩)

/-- Python `sep.join(items)`. -/
def joinSep (sep : String) : List String → String
  | [] => ""
  | [x] => x
  | x :: y :: xs => x ++ sep ++ joinSep sep (y :: xs)

/-- Python `re.sub(r'\s+', ' ', s)`: collapse every whitespace run to one space. -/
def collapseWsList (cs : List Char) : List Char :=
  cs.foldr
    (fun c acc =>
      if pyIsSpaceChar c then
        match acc with
        | ' ' :: _ => acc
        | _ => ' ' :: acc
      else c :: acc) []

/-- `normalize` on a string from `matcher.py`: the punctuation class
`[_\-\.\(\)\[\],]` becomes spaces, whitespace runs collapse to one space,
then strip and lowercase. -/
def normalizeStr (s : String) : String :=
  let s1 := s.data.map (fun c => if "_-.()[],".data.contains c then ' ' else c)
  pyLower (pyStrip ⟨collapseWsList s1⟩)

/-- `normalize` from `matcher.py` on a dynamic value: `None` maps to the
empty string, anything else is `str()`-coerced first. (Named `normalizeVal`
because Mathlib already declares a root-level `normalize`.) -/
def normalizeVal (v : PyVal) : String :=
  match v with
  | .vNone => ""
  | v => normalizeStr (pyStr v)

/-! ## A small backtracking regex matcher

Mirrors the fragment of Python `re` used by `matcher.py`: character classes
with bounded greedy repetition, concatenation, ordered alternation, word
boundaries `\b`, and one capturing group. Match preference order is the
same as Python's: leftmost start, then alternative order, then longest
repetition first.
-/

/-- Regular-expression fragment used by the patterns of `matcher.py`. -/
inductive RE where
  | eps
  | cls (p : Char → Bool) (lo : Nat) (hi : Option Nat)
  | cat (a b : RE)
  | alt (a b : RE)
  | wb
  | grp (a : RE)

/-- Python `\w`: ASCII alphanumeric or underscore. -/
def isWordChar (c : Char) : Bool :=
  c.isAlpha || c.isDigit || c = '_'

/-- Length of the run of characters satisfying `p` at the head of the list. -/
def runLen (p : Char → Bool) : List Char → Nat
  | [] => 0
  | c :: t => if p c then runLen p t + 1 else 0

/-- Is position `i` a word boundary of `cs` (Python `\b`)? -/
def isBoundary (cs : List Char) (i : Nat) : Bool :=
  let before :=
    if i = 0 then false
    else
      match cs.get? (i - 1) with
      | some c => isWordChar c
      | none => false
  let after :=
    match cs.get? i with
    | some c => isWordChar c
    | none => false
  before != after

/-- The list `[m, m-1, ..., lo]` (empty when `m < lo`): greedy preference
order for repetition counts. -/
def descRange (lo m : Nat) : List Nat :=
  (List.range (m + 1 - lo)).map (fun k => m - k)

/-- All ways `r` can match in `cs` starting at position `i`, in backtracking
preference order. Each result is the end position together with the span of
the capturing group, when one matched. -/
def matRE : RE → List Char → Nat → List (Nat × Option (Nat × Nat))
  | .eps, _, i => [(i, none)]
  | .cls p lo hi, cs, i =>
    let n := runLen p (cs.drop i)
    let m := match hi with | some h => min n h | none => n
    (descRange lo m).map (fun k => (i + k, none))
  | .cat a b, cs, i =>
    (matRE a cs i).flatMap (fun r1 =>
      (matRE b cs r1.1).map (fun r2 =>
        (r2.1, match r1.2 with | some g => some g | none => r2.2)))
  | .alt a b, cs, i => matRE a cs i ++ matRE b cs i
  | .wb, cs, i => if isBoundary cs i then [(i, none)] else []
  | .grp a, cs, i => (matRE a cs i).map (fun r => (r.1, some (i, r.1)))

/-- The preferred match of `r` at position `i`, if any. -/
def reMatchAt (r : RE) (cs : List Char) (i : Nat) : Option (Nat × Option (Nat × Nat)) :=
  (matRE r cs i).head?

/-- Non-overlapping scan from position `i` (with fuel for termination):
Python `re.finditer`. Each hit is (start, end, group span). -/
def finditerAux (r : RE) (cs : List Char) : Nat → Nat → List (Nat × Nat × Option (Nat × Nat))
  | 0, _ => []
  | fuel + 1, i =>
    if i > cs.length then []
    else
      match reMatchAt r cs i with
      | some (e, g) =>
        if i < e then (i, e, g) :: finditerAux r cs fuel e
        else (i, e, g) :: finditerAux r cs fuel (i + 1)
      | none => finditerAux r cs fuel (i + 1)

/-- Python `re.finditer` over a whole character list. -/
def finditer (r : RE) (cs : List Char) : List (Nat × Nat × Option (Nat × Nat)) :=
  finditerAux r cs (cs.length + 1) 0

/-- The substring of `cs` between positions `a` (inclusive) and `b` (exclusive). -/
def sliceStr (cs : List Char) (a b : Nat) : String :=
  ⟨(cs.drop a).take (b - a)⟩

/-- Python `re.sub(r, ' ', cs)`: replace every non-overlapping match with a
single space, copying everything else. -/
def reSubAux (r : RE) (cs : List Char) : Nat → Nat → List Char
  | 0, _ => []
  | fuel + 1, i =>
    if i ≥ cs.length then []
    else
      match reMatchAt r cs i with
      | some (e, _) =>
        if i < e then ' ' :: reSubAux r cs fuel e
        else (cs.getD i ' ') :: reSubAux r cs fuel (i + 1)
      | none => (cs.getD i ' ') :: reSubAux r cs fuel (i + 1)

/-- Python `re.sub(pattern, ' ', s)` for the patterns of `matcher.py`. -/
def reSub (r : RE) (cs : List Char) : List Char :=
  reSubAux r cs (cs.length + 1) 0

/-! ## The pattern families of `matcher.py`

All four families are compiled with `re.IGNORECASE`, so letter classes and
literals match both cases. The asset-token regex used inside
`score_candidate` is case-sensitive (it is applied to an uppercased string).
-/

/-- Case-insensitive literal: each character matches either case. -/
def rLit (s : String) : RE :=
  s.data.foldr (fun c acc => RE.cat (RE.cls (fun x => x.toLower = c.toLower) 1 (some 1)) acc) RE.eps

/-- Character class with bounded repetition. -/
def rCls (p : Char → Bool) (lo hi : Nat) : RE :=
  RE.cls p lo (some hi)

/-- Character class with unbounded repetition (`*`). -/
def rStar (p : Char → Bool) : RE :=
  RE.cls p 0 none

/-- Greedy option `(...)?`: try the body first, then skip it. -/
def rOpt (r : RE) : RE :=
  RE.alt r RE.eps

/-- Sequence of fragments. -/
def rSeq (l : List RE) : RE :=
  l.foldr RE.cat RE.eps

/-- The class `[A-Z]` without `re.IGNORECASE` (asset-token regex). -/
def isAZ (c : Char) : Bool :=
  'A' ≤ c && c ≤ 'Z'

/-- The class `[A-Z]` under `re.IGNORECASE`: any ASCII letter. -/
def isAlphaCI (c : Char) : Bool :=
  c.isAlpha

/-- The class `\d`. -/
def isDigitC (c : Char) : Bool :=
  c.isDigit

/-- The class `[A-Z0-9\-]` under `re.IGNORECASE`. -/
def isSerialChar (c : Char) : Bool :=
  c.isAlpha || c.isDigit || c = '-'

/-- The class `[A-Z0-9\-\._]` under `re.IGNORECASE`. -/
def isModelChar (c : Char) : Bool :=
  c.isAlpha || c.isDigit || c = '-' || c = '.' || c = '_'

/-- The class `[A-Za-z0-9&\-\., ]`. -/
def isMfrChar (c : Char) : Bool :=
  c.isAlpha || c.isDigit || c = '&' || c = '-' || c = '.' || c = ',' || c = ' '

/-- The separator class `[:\s#\-]`. -/
def isSepChar (c : Char) : Bool :=
  c = ':' || pyIsSpaceChar c || c = '#' || c = '-'

/-- `\b[A-Z]{2,5}-\d{3,8}\b` (ABC-123456). -/
def idPat1 : RE :=
  rSeq [RE.wb, rCls isAlphaCI 2 5, rCls (fun c => c = '-') 1 1, rCls isDigitC 3 8, RE.wb]

/-- `\b[A-Z]{2,5}\d{3,8}\b` (ABC123456). -/
def idPat2 : RE :=
  rSeq [RE.wb, rCls isAlphaCI 2 5, rCls isDigitC 3 8, RE.wb]

/-- `\bTAG[-\s]?\d{3,8}\b` (TAG-123456). -/
def idPat3 : RE :=
  rSeq [RE.wb, rLit "TAG", rCls (fun c => c = '-' || pyIsSpaceChar c) 0 1, rCls isDigitC 3 8, RE.wb]

/-- `ID_PATTERNS` from `matcher.py`. -/
def ID_PATTERNS : List RE :=
  [idPat1, idPat2, idPat3]

/-- The label alternation `(?:S\/?N|Serial(?:\sNo\.|\sNumber)?|SERIAL\sNO\.?)`. -/
def serialLabel : RE :=
  RE.alt (rSeq [rLit "S", rCls (fun c => c = '/') 0 1, rLit "N"])
    (RE.alt
      (rSeq [rLit "Serial",
             rOpt (RE.alt (rSeq [rCls pyIsSpaceChar 1 1, rLit "No."])
                          (rSeq [rCls pyIsSpaceChar 1 1, rLit "Number"]))])
      (rSeq [rLit "SERIAL", rCls pyIsSpaceChar 1 1, rLit "NO", rCls (fun c => c = '.') 0 1]))

/-- First serial pattern: label, separators, then a captured `[A-Z0-9\-]{5,20}`. -/
def serialPat1 : RE :=
  rSeq [RE.wb, serialLabel, rStar isSepChar, RE.grp (rCls isSerialChar 5 20), RE.wb]

/-- `\bSN[:\s#\-]*([A-Z0-9\-]{5,20})\b`. -/
def serialPat2 : RE :=
  rSeq [RE.wb, rLit "SN", rStar isSepChar, RE.grp (rCls isSerialChar 5 20), RE.wb]

/-- `SERIAL_PATTERNS` from `matcher.py`. -/
def SERIAL_PATTERNS : List RE :=
  [serialPat1, serialPat2]

/-- The optional label tail `(?:\sNo\.|\sNumber)?`. -/
def modelOptNo : RE :=
  rOpt (RE.alt (rSeq [rCls pyIsSpaceChar 1 1, rLit "No."])
               (rSeq [rCls pyIsSpaceChar 1 1, rLit "Number"]))

/-- `\bModel(?:\sNo\.|\sNumber)?[:\s#\-]*([A-Z0-9\-\._]{2,30})\b`. -/
def modelPat1 : RE :=
  rSeq [RE.wb, rLit "Model", modelOptNo, rStar isSepChar, RE.grp (rCls isModelChar 2 30), RE.wb]

/-- `\b(?:Type|Model)\s([A-Z0-9\-\._]{2,30})\b`. -/
def modelPat2 : RE :=
  rSeq [RE.wb, RE.alt (rLit "Type") (rLit "Model"), rCls pyIsSpaceChar 1 1,
        RE.grp (rCls isModelChar 2 30), RE.wb]

/-- `MODEL_PATTERNS` from `matcher.py`. -/
def MODEL_PATTERNS : List RE :=
  [modelPat1, modelPat2]

/-- `\bManufacturer[:\s]*([A-Za-z0-9&\-\., ]{2,50})\b`. -/
def mfrPat1 : RE :=
  rSeq [RE.wb, rLit "Manufacturer", rStar (fun c => c = ':' || pyIsSpaceChar c),
        RE.grp (rCls isMfrChar 2 50), RE.wb]

/-- `\bMade by[:\s]*([A-Za-z0-9&\-\., ]{2,50})\b`. -/
def mfrPat2 : RE :=
  rSeq [RE.wb, rLit "Made by", rStar (fun c => c = ':' || pyIsSpaceChar c),
        RE.grp (rCls isMfrChar 2 50), RE.wb]

/-- `MANUFACTURER_PATTERNS` from `matcher.py`. -/
def MANUFACTURER_PATTERNS : List RE :=
  [mfrPat1, mfrPat2]

/-- `find_with_patterns` from `matcher.py`: scan the text with each pattern
in order, take the captured group when the pattern has one (else the whole
match), strip whitespace then the characters `:#- `, uppercase, and collect
first occurrences only. -/
def find_with_patterns (text : String) (patterns : List RE) : List String :=
  let cs := text.data
  patterns.foldl
    (fun found pat =>
      (finditer pat cs).foldl
        (fun found m =>
          let raw :=
            match m.2.2 with
            | some g => sliceStr cs g.1 g.2
            | none => sliceStr cs m.1 m.2.1
          let val := pyUpper (pyStripChars (pyStrip raw) ":#- ".data)
          if val != "" && !(found.contains val) then found ++ [val] else found)
        found)
    []

/-- The per-document signal sets of `matcher.py` (`title_terms` is filled in
by the orchestrator after `parse_identifiers`). -/
structure Signals where
  asset_ids : List String
  serials : List String
  models : List String
  manufacturers : List String
  title_terms : String
deriving DecidableEq, Repr

/-- `parse_identifiers` from `matcher.py`. -/
def parse_identifiers (text : String) : Signals :=
  { asset_ids := find_with_patterns text ID_PATTERNS
    serials := find_with_patterns text SERIAL_PATTERNS
    models := find_with_patterns text MODEL_PATTERNS
    manufacturers := find_with_patterns text MANUFACTURER_PATTERNS
    title_terms := "" }

/-! ## Title-terms heuristic -/

/-- The boilerplate stoplist regex
`\b(operations|maintenance|manual|instructions|guide|table of contents)\b`
of `guess_title_terms`, compiled with `re.IGNORECASE`. -/
def stopRE : RE :=
  rSeq [RE.wb,
        RE.grp (RE.alt (rLit "operations")
                 (RE.alt (rLit "maintenance")
                   (RE.alt (rLit "manual")
                     (RE.alt (rLit "instructions")
                       (RE.alt (rLit "guide") (rLit "table of contents")))))),
        RE.wb]

/-- `guess_title_terms` from `matcher.py`: the first 20 lines of the text
(blank or not), keeping the stripped non-blank ones, joined with spaces,
with the stoplist words replaced by spaces and whitespace collapsed. -/
def guess_title_terms (text : String) : String :=
  let lines := ((pySplitlines text).take 20).filterMap
    (fun ln => let s := pyStrip ln; if s != "" then some s else none)
  let header := joinSep " " lines
  let header := reSub stopRE header.data
  pyStrip ⟨collapseWsList header⟩

/-- Modelled from the spec sentence of the title-terms heuristic: take the
first 20 NON-BLANK lines of the text (not the non-blank among the first 20
lines), then proceed exactly as `guess_title_terms` does. Used to compare
the spec's wording with the code. -/
def guess_title_terms_specWording (text : String) : String :=
  let lines := ((pySplitlines text).filterMap
    (fun ln => let s := pyStrip ln; if s != "" then some s else none)).take 20
  let header := joinSep " " lines
  let header := reSub stopRE header.data
  pyStrip ⟨collapseWsList header⟩

/-- The amended description of `guess_title_terms`: among the first 20 lines
of the text, the non-blank ones are kept (first stripped), joined with
spaces, stoplist-stripped and whitespace-collapsed. Stated as take-20 then
filter-then-map to mirror the amended words. -/
def guess_title_terms_amended (text : String) : String :=
  let first20 := (pySplitlines text).take 20
  let kept := (first20.map pyStrip).filter (fun s => s != "")
  let header := joinSep " " kept
  let header := reSub stopRE header.data
  pyStrip ⟨collapseWsList header⟩

/-! ## Scoring engine -/

/-- Per-document file metadata as built by the orchestrator (`hash` is
`None` unless hash computation was requested). -/
structure FileMeta where
  file_path : String
  dir : String
  name : String
  size : Int
  mtime : Int
  hash : Option String
deriving DecidableEq, Repr

/-- One asset-registry row: a dynamic record whose cells may be strings,
`None`, `NaN` (blank spreadsheet cell) or absent. -/
structure AssetRow where
  asset_id : PyVal := .vAbsent
  external_id : PyVal := .vAbsent
  tag : PyVal := .vAbsent
  name : PyVal := .vAbsent
  serial : PyVal := .vAbsent
  model : PyVal := .vAbsent
  manufacturer : PyVal := .vAbsent
  project : PyVal := .vAbsent
  file_hash : PyVal := .vAbsent
deriving DecidableEq, Repr

/-- The asset-token regex `[A-Z]{2,5}-\d{3,8}|[A-Z]{2,5}\d{3,8}` applied to
the identifying fields of a row (case-sensitive, applied to uppercased text). -/
def tokenRE : RE :=
  RE.alt (rSeq [rCls isAZ 2 5, rCls (fun c => c = '-') 1 1, rCls isDigitC 3 8])
         (rSeq [rCls isAZ 2 5, rCls isDigitC 3 8])

/-- `re.findall` of the asset-token regex over a string. -/
def tokenFindall (s : String) : List String :=
  (finditer tokenRE s.data).map (fun m => sliceStr s.data m.1 m.2.1)

/-- The asset tokens scanned from `asset_id`, `external_id`, `tag`, `name`
(truthy fields only, `str()`-coerced and uppercased). -/
def idTokensOf (asset_row : AssetRow) : List String :=
  [asset_row.asset_id, asset_row.external_id, asset_row.tag, asset_row.name].foldl
    (fun acc v => if pyTruthy v then acc ++ tokenFindall (pyUpper (pyStr v)) else acc) []

/-- Exact-identifier rule: +50 and `id_match` when an asset token occurs in
the document's `asset_ids` set. -/
def ruleId (signals : Signals) (asset_row : AssetRow) (st : Nat × List String) :
    Nat × List String :=
  if signals.asset_ids.any (fun v => (idTokensOf asset_row).contains v) then
    (st.1 + 50, st.2 ++ ["id_match"])
  else st

/-- Serial rule: +25 and `serial_match` when the uppercased serial is
non-empty and occurs verbatim in the document's serial set. -/
def ruleSerial (signals : Signals) (asset_row : AssetRow) (st : Nat × List String) :
    Nat × List String :=
  let asset_serial := pyUpper (pyStr (pyGet asset_row.serial (.vStr "")))
  if asset_serial != "" && signals.serials.contains asset_serial then
    (st.1 + 25, st.2 ++ ["serial_match"])
  else st

/-- Model rule: exact membership gives +20 `model_match`; otherwise the
first extracted model of length at least 4 that contains or is contained in
the asset model gives +15 `model_partial` (the loop breaks). -/
def ruleModel (signals : Signals) (asset_row : AssetRow) (st : Nat × List String) :
    Nat × List String :=
  let asset_model := pyUpper (pyStr (pyGet asset_row.model (.vStr "")))
  if asset_model != "" then
    if signals.models.contains asset_model then
      (st.1 + 20, st.2 ++ ["model_match"])
    else
      match signals.models.find?
          (fun m => decide (4 ≤ m.length) && (pyInStr m asset_model || pyInStr asset_model m)) with
      | some _ => (st.1 + 15, st.2 ++ ["model_partial"])
      | none => st
  else st

/-- Manufacturer rule: +10 and a `manufacturer` reason for every extracted
manufacturer whose fuzzy similarity with the normalized asset manufacturer
reaches 90. -/
def ruleMfr (ratio : String → String → Nat) (signals : Signals) (asset_row : AssetRow)
    (st : Nat × List String) : Nat × List String :=
  let asset_mfr := normalizeVal (pyGet asset_row.manufacturer (.vStr ""))
  signals.manufacturers.foldl
    (fun st m =>
      if decide (90 ≤ ratio asset_mfr (normalizeStr m)) then
        (st.1 + 10, st.2 ++ ["manufacturer"])
      else st)
    st

/-- Fuzzy name rule: when `title_terms` is non-empty, similarity at least 90
gives +20 and at least 80 gives +10, tagged with the literal similarity. -/
def ruleFuzzy (ratio : String → String → Nat) (signals : Signals) (asset_row : AssetRow)
    (st : Nat × List String) : Nat × List String :=
  if signals.title_terms != "" then
    let sim := ratio (normalizeVal (pyGet asset_row.name (.vStr "")))
                     (normalizeStr signals.title_terms)
    if decide (90 ≤ sim) then (st.1 + 20, st.2 ++ ["fuzzy_name_" ++ toString sim])
    else if decide (80 ≤ sim) then (st.1 + 10, st.2 ++ ["fuzzy_name_" ++ toString sim])
    else st
  else st

/-- The folder-hint test `asset_row.get("project") and asset_row["project"]
and asset_row["project"].lower() in file_meta["dir"].lower()`. A truthy
non-string project value (a pandas `NaN`) raises `AttributeError` at the
`.lower()` call. -/
def folderCheck (project : PyVal) (dir : String) : Except String Bool :=
  match project with
  | .vAbsent => .ok false
  | .vNone => .ok false
  | .vNan => .error "AttributeError: float object has no attribute lower"
  | .vStr s => .ok (s != "" && pyInStr (pyLower s) (pyLower dir))

/-- Hash-bonus guard: document hash computed and non-empty, asset
`file_hash` truthy, and the two equal (string equality; a `NaN` asset hash
is truthy but never equal to a string). -/
def hashCond (file_meta : FileMeta) (asset_row : AssetRow) : Bool :=
  match file_meta.hash with
  | none => false
  | some h =>
    h != "" &&
      (match asset_row.file_hash with
       | .vStr g => g != "" && g == h
       | _ => false)

/-- `score_candidate` up to and including the folder-hint rule (everything
before the hash bonus). -/
def score_pre (ratio : String → String → Nat) (file_meta : FileMeta) (asset_row : AssetRow)
    (signals : Signals) : Except String (Nat × List String) :=
  let st5 := ruleFuzzy ratio signals asset_row
    (ruleMfr ratio signals asset_row
      (ruleModel signals asset_row
        (ruleSerial signals asset_row
          (ruleId signals asset_row (0, [])))))
  match folderCheck asset_row.project file_meta.dir with
  | .error e => .error e
  | .ok b => .ok (if b then (st5.1 + 10, st5.2 ++ ["folder_hint"]) else st5)

/-- `score_candidate` from `matcher.py`: the rule chain followed by the hash
override `score = max(score, 100)` with reason `hash_match`. -/
def score_candidate (ratio : String → String → Nat) (file_meta : FileMeta)
    (asset_row : AssetRow) (signals : Signals) : Except String (Nat × List String) :=
  match score_pre ratio file_meta asset_row signals with
  | .error e => .error e
  | .ok st =>
    .ok (if hashCond file_meta asset_row then (max st.1 100, st.2 ++ ["hash_match"]) else st)

/-! ## Match orchestrator -/

/-- One scored candidate as the orchestrator materialises it (a copy of the
asset's display fields plus score and comma-joined reasons). -/
structure ScoredCand where
  asset_id : PyVal
  name : PyVal
  score : Nat
  reasons : String
  manufacturer : PyVal
  model : PyVal
  serial : PyVal
  external_id : PyVal
  project : PyVal
deriving DecidableEq, Repr

/-- Build the candidate dictionary for one asset row. -/
def mkScoredCand (a : AssetRow) (sc : Nat) (rs : List String) : ScoredCand :=
  { asset_id := pyGet a.asset_id .vNone
    name := pyGet a.name (.vStr "")
    score := sc
    reasons := joinSep ", " rs
    manufacturer := pyGet a.manufacturer (.vStr "")
    model := pyGet a.model (.vStr "")
    serial := pyGet a.serial (.vStr "")
    external_id := pyGet a.external_id (.vStr "")
    project := pyGet a.project (.vStr "") }

/-- One Match Result: on success `signals` is set and `error` is `none`; on
a per-document failure `error` carries the message, `signals` and
`auto_choice` are unset and `top_candidates` is empty. -/
structure MatchResult where
  file_path : String
  signals : Option Signals
  top_candidates : List ScoredCand
  auto_choice : Option ScoredCand
  error : Option String
deriving DecidableEq, Repr

/-- Insert a candidate into a list sorted by descending score, after every
strictly greater element and before every equal-or-smaller one. -/
def insertScoreDesc (c : ScoredCand) : List ScoredCand → List ScoredCand
  | [] => [c]
  | x :: xs => if c.score < x.score then x :: insertScoreDesc c xs else c :: x :: xs

/-- The stable descending sort `scored.sort(key=score, reverse=True)` of
Python, realised as a stable insertion sort. -/
def sortScoreDesc : List ScoredCand → List ScoredCand
  | [] => []
  | c :: cs => insertScoreDesc c (sortScoreDesc cs)

/-- Sequence a fallible map over a list, propagating the first raised
exception (a Python `for` loop whose body may raise). -/
def mapExcept (f : α → Except String β) : List α → Except String (List β)
  | [] => .ok []
  | a :: asx =>
    match f a with
    | .error e => .error e
    | .ok b =>
      match mapExcept f asx with
      | .error e => .error e
      | .ok bs => .ok (b :: bs)

/-- `os.path.dirname` for POSIX paths. -/
def pyDirname (p : String) : String :=
  let cs := p.data
  let base := cs.reverse.takeWhile (fun c => c ≠ '/')
  let head := cs.take (cs.length - base.length)
  if head.isEmpty then ""
  else if head.all (fun c => c = '/') then ⟨head⟩
  else ⟨(head.reverse.dropWhile (fun c => c = '/')).reverse⟩

/-- `os.path.basename` for POSIX paths. -/
def pyBasename (p : String) : String :=
  ⟨(p.data.reverse.takeWhile (fun c => c ≠ '/')).reverse⟩

/-- The per-path file-system and extraction outcomes the orchestrator
depends on: the result of `extract_text_any`, `os.path.getsize`,
`os.path.getmtime` and `file_hash`, each possibly raising. -/
structure DocEnv where
  text : String → Except String String
  size : String → Except String Int
  mtime : String → Except String Int
  hashv : String → Except String String

/-- Score one asset row and build its candidate dictionary (the body of the
orchestrator's scoring loop). -/
def candOf (ratio : String → String → Nat) (meta : FileMeta) (signals : Signals)
    (a : AssetRow) : Except String ScoredCand :=
  match score_candidate ratio meta a signals with
  | .error e => .error e
  | .ok st => .ok (mkScoredCand a st.1 st.2)

/-- The body of the orchestrator's `try` block for one document path:
extract text, parse signals, build metadata, score every asset, rank, keep
the top 5, and apply the fixed auto-choice threshold of 80. -/
def processOne (env : DocEnv) (ratio : String → String → Nat) (assets : List AssetRow)
    (compute_hash : Bool) (path : String) : Except String MatchResult :=
  match env.text path with
  | .error e => .error e
  | .ok text =>
    let signals := { parse_identifiers text with title_terms := guess_title_terms text }
    match env.size path with
    | .error e => .error e
    | .ok size =>
      match env.mtime path with
      | .error e => .error e
      | .ok mtime =>
        match (if compute_hash then (env.hashv path).map some else .ok none) with
        | .error e => .error e
        | .ok hsh =>
          let meta : FileMeta :=
            { file_path := path, dir := pyDirname path, name := pyBasename path
              size := size, mtime := mtime, hash := hsh }
          match mapExcept (candOf ratio meta signals) assets with
          | .error e => .error e
          | .ok scored =>
            let top := (sortScoreDesc scored).take 5
            .ok { file_path := path
                  signals := some signals
                  top_candidates := top
                  auto_choice :=
                    match top with
                    | c :: _ => if 80 ≤ c.score then some c else none
                    | [] => none
                  error := none }

/-- The per-document `try/except`: a raised exception becomes a result with
the error message and an empty candidate list. -/
def handleDoc (env : DocEnv) (ratio : String → String → Nat) (assets : List AssetRow)
    (compute_hash : Bool) (path : String) : MatchResult :=
  match processOne env ratio assets compute_hash path with
  | .ok r => r
  | .error e =>
    { file_path := path, signals := none, top_candidates := [], auto_choice := none
      error := some e }

/-- `match_files_to_assets` from `matcher.py`: one result per input path, in
input order, each produced independently by `handleDoc`. -/
def match_files_to_assets (env : DocEnv) (ratio : String → String → Nat)
    (file_paths : List String) (assets : List AssetRow) (compute_hash : Bool) :
    List MatchResult :=
  file_paths.map (handleDoc env ratio assets compute_hash)

/-! ## PDF text-extraction fallback chain -/

/-- The library-call outcomes `extract_text_pdf` depends on for one PDF:
the page texts PyMuPDF yields (with an optional exception raised after
them), the page texts pdfplumber yields (`extract_text() or ""` per page,
with an optional exception at any point, in which case the accumulated
text is not recomputed), the per-page OCR strings with an optional
exception (in which case the previous text is kept), and the page count. -/
structure PdfSource where
  fitzPages : List String
  fitzErr : Option String
  plumberPages : List String
  plumberErr : Option String
  ocrPageTexts : List String
  ocrErr : Option String
  numPages : Nat
deriving Repr

/-- The page texts the native (PyMuPDF) pass keeps:
`if text and text.strip(): text_chunks.append(text)`. -/
def pdfKeptChunks (src : PdfSource) : List String :=
  src.fitzPages.filter (fun t => t != "" && pyStrip t != "")

/-- The text after stage 1: `"\n".join(text_chunks).strip()`. -/
def pdfNativeText (src : PdfSource) : String :=
  pyStrip (joinSep "\n" (pdfKeptChunks src))

/-- The text after the pdfplumber fallback stage: recomputed from the
combined chunk list only when the stage ran and did not raise. -/
def pdfText2 (src : PdfSource) : String :=
  if (pdfNativeText src).length < 100 then
    match src.plumberErr with
    | some _ => pdfNativeText src
    | none =>
      pyStrip (joinSep "\n"
        (pdfKeptChunks src ++ src.plumberPages.filter (fun t => pyStrip t != "")))
  else pdfNativeText src

/-- `extract_text_pdf` from `matcher.py`: native text layer, then the
pdfplumber fallback below 100 characters, then OCR of up to
`max_pages_ocr` pages (replacing, not appending) when still below 100
characters and enabled. -/
def extract_text_pdf (src : PdfSource) (use_ocr_if_empty : Bool := true)
    (max_pages_ocr : Nat := 5) : String :=
  let text2 := pdfText2 src
  if use_ocr_if_empty && text2.length < 100 then
    match src.ocrErr with
    | some _ => text2
    | none => pyStrip (joinSep "\n" (src.ocrPageTexts.take (min src.numPages max_pages_ocr)))
  else text2

/-- Does the pdfplumber fallback stage run (the guard `len(text) < 100`
after stage 1)? -/
def pdfPlumberInvoked (src : PdfSource) : Bool :=
  (pdfNativeText src).length < 100

/-- Does the OCR stage run (the guard `use_ocr_if_empty and len(text) < 100`
after stage 2)? -/
def pdfOcrInvoked (src : PdfSource) (use_ocr_if_empty : Bool) : Bool :=
  use_ocr_if_empty && (pdfText2 src).length < 100

/-! ## Flat export table -/

/-- One row of the flat export table of `save_results_csv`. -/
structure CsvRow where
  file_path : String
  asset_id : PyVal
  asset_name : PyVal
  score : Nat
  reasons : String
  manufacturer : PyVal
  model : PyVal
  serial : PyVal
  external_id : PyVal
  project : PyVal
deriving DecidableEq, Repr

/-- The row built for one (document, candidate) pair. -/
def mkCsvRow (r : MatchResult) (c : ScoredCand) : CsvRow :=
  { file_path := r.file_path
    asset_id := c.asset_id
    asset_name := c.name
    score := c.score
    reasons := c.reasons
    manufacturer := c.manufacturer
    model := c.model
    serial := c.serial
    external_id := c.external_id
    project := c.project }

/-- `save_results_csv` from `matcher.py`: the flat table it builds, one row
per candidate of each result (persisting the table to disk is outside the
modelled core). -/
def save_results_csv (results : List MatchResult) : List CsvRow :=
  results.flatMap (fun r => r.top_candidates.map (fun c => mkCsvRow r c))

/-- The (document, candidate) pairs of a result list, in order. -/
def docCandPairs (results : List MatchResult) : List (MatchResult × ScoredCand) :=
  results.flatMap (fun r => r.top_candidates.map (fun c => (r, c)))

/-! ## Concrete fixtures

Small closed instances used by witnesses and counterexamples. `ratio0` is
an admissible instance of the external fuzzy-similarity function (the real
library returns 0 whenever one side is empty, which is the only case these
fixtures exercise with non-trivial arguments).
-/

/-- A concrete instance of the external similarity function. -/
def ratio0 : String → String → Nat := fun _ _ => 0

/-- A document whose text yields an asset id, a serial, and a folder hint. -/
def env3 : DocEnv :=
  { text := fun p =>
      if p = "plantA/doc.pdf" then .ok "ABC-123456\nSerial No: SN12345"
      else .error "FileNotFoundError"
    size := fun p => if p = "plantA/doc.pdf" then .ok 2048 else .error "FileNotFoundError"
    mtime := fun p => if p = "plantA/doc.pdf" then .ok 1700000000 else .error "FileNotFoundError"
    hashv := fun _ => .ok "0abc" }

/-- The registry for the `env3` scenario: the single asset matches by id,
serial and folder hint, scoring 50 + 25 + 10 = 85. -/
def assets3 : List AssetRow :=
  [{ asset_id := .vStr "ABC-123456", serial := .vStr "SN12345", project := .vStr "plantA" }]

/-- The result the orchestrator produces for the `env3` document. -/
def scen3_result : MatchResult :=
  handleDoc env3 ratio0 assets3 false "plantA/doc.pdf"

/-- A batch environment with one unreadable and one readable document. -/
def envC1 : DocEnv :=
  { text := fun p => if p = "good.pdf" then .ok "" else .error "OSError: unreadable"
    size := fun p => if p = "good.pdf" then .ok 10 else .error "FileNotFoundError"
    mtime := fun p => if p = "good.pdf" then .ok 0 else .error "FileNotFoundError"
    hashv := fun _ => .error "FileNotFoundError" }

/-- A placeholder result used to state closed facts about list heads. -/
def dummyResult : MatchResult :=
  { file_path := "", signals := none, top_candidates := [], auto_choice := none, error := none }

/-- A placeholder candidate used to state closed facts about list heads. -/
def dummyCand : ScoredCand :=
  { asset_id := .vNone, name := .vStr "", score := 0, reasons := ""
    manufacturer := .vStr "", model := .vStr "", serial := .vStr ""
    external_id := .vStr "", project := .vStr "" }

/-- Is a candidate list sorted by non-increasing score? -/
def sortedDesc : List ScoredCand → Bool
  | [] => true
  | [_] => true
  | a :: b :: t => decide (b.score ≤ a.score) && sortedDesc (b :: t)

/-- Empty signal record (the signals of an empty document). -/
def sigEmpty : Signals :=
  ⟨[], [], [], [], ""⟩

/-- File metadata with a computed content hash. -/
def fmW : FileMeta :=
  ⟨"d/x.pdf", "d", "x.pdf", 0, 0, some "0abc"⟩

/-- An asset row whose stored hash equals the document hash of `fmW`. -/
def rowW : AssetRow :=
  { file_hash := .vStr "0abc" }

/-- File metadata without a content hash. -/
def fm6 : FileMeta :=
  ⟨"d/x.pdf", "d", "x.pdf", 0, 0, none⟩

/-- An asset row whose `project` cell is a pandas `NaN` (blank spreadsheet
cell), with every other field absent. -/
def row6 : AssetRow :=
  { project := .vNan }

/-- An asset row with every expected field missing. -/
def row6ok : AssetRow :=
  {}

/-- An asset row that matches a document model signal exactly. -/
def rowM : AssetRow :=
  { model := .vStr "X-200" }

/-- Signals containing exactly one extracted model. -/
def sigM : Signals :=
  ⟨[], [], ["X-200"], [], ""⟩

/-- A PDF whose native text layer already yields 120 characters. -/
def src7 : PdfSource :=
  { fitzPages := [String.mk (List.replicate 120 'x')]
    fitzErr := none
    plumberPages := ["alternate parser text"]
    plumberErr := none
    ocrPageTexts := ["ocr text"]
    ocrErr := none
    numPages := 1 }

/-- The text whose 2nd to 21st lines are blank, separating the first
non-blank line from the second by more than 20 lines. -/
def t8 : String :=
  "A" ++ String.mk (List.replicate 21 '\n') ++ "B"

/-! ## Rule characterisation lemmas -/

/-- String append acts as list append on the underlying data. -/
lemma string_append_data (a b : String) : (a ++ b).data = a.data ++ b.data := by
  cases a; cases b; rfl

/-- A fuzzy-name tag starts with the letter f. -/
lemma fuzzy_head (s : String) : ("fuzzy_name_" ++ s).data.head? = some 'f' := by
  cases s; rfl

/-- A fuzzy-name tag is never the `model_match` tag. -/
lemma fuzzyTag_ne_mm (s : String) : ("fuzzy_name_" ++ s) ≠ "model_match" := by
  intro h
  have h2 : ("fuzzy_name_" ++ s).data.head? = "model_match".data.head? := by rw [h]
  rw [fuzzy_head] at h2
  exact absurd h2 (by decide)

/-- A fuzzy-name tag is never the `model_partial` tag. -/
lemma fuzzyTag_ne_mp (s : String) : ("fuzzy_name_" ++ s) ≠ "model_partial" := by
  intro h
  have h2 : ("fuzzy_name_" ++ s).data.head? = "model_partial".data.head? := by rw [h]
  rw [fuzzy_head] at h2
  exact absurd h2 (by decide)

/-- The identifier rule either leaves the state unchanged or adds exactly
+50 with the single reason `id_match`. -/
lemma ruleId_spec (sig : Signals) (row : AssetRow) (st : Nat × List String) :
    ruleId sig row st = st ∨ ruleId sig row st = (st.1 + 50, st.2 ++ ["id_match"]) := by
  unfold ruleId
  split
  · exact Or.inr rfl
  · exact Or.inl rfl

/-- The serial rule either leaves the state unchanged or adds exactly +25
with the single reason `serial_match`. -/
lemma ruleSerial_spec (sig : Signals) (row : AssetRow) (st : Nat × List String) :
    ruleSerial sig row st = st ∨ ruleSerial sig row st = (st.1 + 25, st.2 ++ ["serial_match"]) := by
  simp only [ruleSerial]
  split
  · exact Or.inr rfl
  · exact Or.inl rfl

/-- The model rule leaves the state unchanged, or adds +20 `model_match`,
or adds +15 `model_partial` — never more than one of the three. -/
lemma ruleModel_spec (sig : Signals) (row : AssetRow) (st : Nat × List String) :
    ruleModel sig row st = st ∨
      ruleModel sig row st = (st.1 + 20, st.2 ++ ["model_match"]) ∨
      ruleModel sig row st = (st.1 + 15, st.2 ++ ["model_partial"]) := by
  simp only [ruleModel]
  split
  · split
    · exact Or.inr (Or.inl rfl)
    · split
      · exact Or.inr (Or.inr rfl)
      · exact Or.inl rfl
  · exact Or.inl rfl

/-- The manufacturer loop adds +10 and one `manufacturer` reason per
qualifying hit: its net effect is +10k with k copies of the reason. -/
lemma mfrFold_spec (f : String → Bool) :
    ∀ (ms : List String) (st : Nat × List String),
      ms.foldl (fun st m => if f m then (st.1 + 10, st.2 ++ ["manufacturer"]) else st) st
        = (st.1 + 10 * ms.countP f, st.2 ++ List.replicate (ms.countP f) "manufacturer") := by
  intro ms
  induction ms with
  | nil => intro st; simp
  | cons m ms ih =>
    intro st
    rw [List.foldl_cons]
    by_cases h : f m = true
    · rw [if_pos h, ih]
      have hc : (m :: ms).countP f = ms.countP f + 1 := by
        simp [List.countP_cons, h]
      rw [hc]
      simp only [Prod.mk.injEq]
      refine ⟨by omega, ?_⟩
      rw [List.append_assoc]
      simp [List.replicate_succ]
    · have h' : f m = false := by simpa using h
      rw [if_neg (by simp [h']), ih]
      have hc : (m :: ms).countP f = ms.countP f := by
        simp [List.countP_cons, h']
      rw [hc]

/-- The manufacturer rule's net effect in closed form. -/
lemma ruleMfr_spec (ratio : String → String → Nat) (sig : Signals) (row : AssetRow)
    (st : Nat × List String) :
    ∃ k, ruleMfr ratio sig row st = (st.1 + 10 * k, st.2 ++ List.replicate k "manufacturer") := by
  unfold ruleMfr
  exact ⟨_, mfrFold_spec _ sig.manufacturers st⟩

/-- The fuzzy-name rule either leaves the state unchanged or adds +20 or
+10 with a single `fuzzy_name_` tag. -/
lemma ruleFuzzy_spec (ratio : String → String → Nat) (sig : Signals) (row : AssetRow)
    (st : Nat × List String) :
    ruleFuzzy ratio sig row st = st ∨
      ∃ n : Nat, ruleFuzzy ratio sig row st = (st.1 + 20, st.2 ++ ["fuzzy_name_" ++ toString n]) ∨
           ruleFuzzy ratio sig row st = (st.1 + 10, st.2 ++ ["fuzzy_name_" ++ toString n]) := by
  simp only [ruleFuzzy]
  split
  · split
    · exact Or.inr ⟨ratio (normalizeVal (pyGet row.name (.vStr ""))) (normalizeStr sig.title_terms),
        Or.inl rfl⟩
    · split
      · exact Or.inr ⟨ratio (normalizeVal (pyGet row.name (.vStr ""))) (normalizeStr sig.title_terms),
          Or.inr rfl⟩
      · exact Or.inl rfl
  · exact Or.inl rfl

/-- Identifier rule as a net (score, reasons) extension with linked emptiness. -/
lemma ruleId_ext (sig : Signals) (row : AssetRow) (st : Nat × List String) :
    ∃ c t, ruleId sig row st = (st.1 + c, st.2 ++ t) ∧ (c = 0 ↔ t = []) := by
  rcases ruleId_spec sig row st with h | h
  · exact ⟨0, [], by rw [h]; simp, by simp⟩
  · exact ⟨50, ["id_match"], h, by simp⟩

/-- Serial rule as a net extension with linked emptiness. -/
lemma ruleSerial_ext (sig : Signals) (row : AssetRow) (st : Nat × List String) :
    ∃ c t, ruleSerial sig row st = (st.1 + c, st.2 ++ t) ∧ (c = 0 ↔ t = []) := by
  rcases ruleSerial_spec sig row st with h | h
  · exact ⟨0, [], by rw [h]; simp, by simp⟩
  · exact ⟨25, ["serial_match"], h, by simp⟩

/-- Model rule as a net extension with linked emptiness. -/
lemma ruleModel_ext (sig : Signals) (row : AssetRow) (st : Nat × List String) :
    ∃ c t, ruleModel sig row st = (st.1 + c, st.2 ++ t) ∧ (c = 0 ↔ t = []) := by
  rcases ruleModel_spec sig row st with h | h | h
  · exact ⟨0, [], by rw [h]; simp, by simp⟩
  · exact ⟨20, ["model_match"], h, by simp⟩
  · exact ⟨15, ["model_partial"], h, by simp⟩

/-- Manufacturer rule as a net extension with linked emptiness. -/
lemma ruleMfr_ext (ratio : String → String → Nat) (sig : Signals) (row : AssetRow)
    (st : Nat × List String) :
    ∃ c t, ruleMfr ratio sig row st = (st.1 + c, st.2 ++ t) ∧ (c = 0 ↔ t = []) := by
  obtain ⟨k, hk⟩ := ruleMfr_spec ratio sig row st
  refine ⟨10 * k, List.replicate k "manufacturer", hk, ?_⟩
  constructor
  · intro h0
    have hk0 : k = 0 := by omega
    subst hk0
    rfl
  · intro ht
    cases k with
    | zero => rfl
    | succ n => rw [List.replicate_succ] at ht; exact absurd ht (by simp)

/-- Fuzzy-name rule as a net extension with linked emptiness. -/
lemma ruleFuzzy_ext (ratio : String → String → Nat) (sig : Signals) (row : AssetRow)
    (st : Nat × List String) :
    ∃ c t, ruleFuzzy ratio sig row st = (st.1 + c, st.2 ++ t) ∧ (c = 0 ↔ t = []) := by
  rcases ruleFuzzy_spec ratio sig row st with h | ⟨n, h | h⟩
  · exact ⟨0, [], by rw [h]; simp, by simp⟩
  · exact ⟨20, ["fuzzy_name_" ++ toString n], h, by simp⟩
  · exact ⟨10, ["fuzzy_name_" ++ toString n], h, by simp⟩

/-- The whole pre-hash rule chain is a net extension of the empty state
with linked emptiness of score and reasons. -/
lemma score_chain_ext (ratio : String → String → Nat) (sig : Signals) (row : AssetRow) :
    ∃ c t,
      ruleFuzzy ratio sig row
          (ruleMfr ratio sig row
            (ruleModel sig row (ruleSerial sig row (ruleId sig row (0, [])))))
        = (c, t) ∧ (c = 0 ↔ t = []) := by
  obtain ⟨c1, t1, e1, i1⟩ := ruleId_ext sig row (0, [])
  obtain ⟨c2, t2, e2, i2⟩ := ruleSerial_ext sig row (ruleId sig row (0, []))
  obtain ⟨c3, t3, e3, i3⟩ := ruleModel_ext sig row
    (ruleSerial sig row (ruleId sig row (0, [])))
  obtain ⟨c4, t4, e4, i4⟩ := ruleMfr_ext ratio sig row
    (ruleModel sig row (ruleSerial sig row (ruleId sig row (0, []))))
  obtain ⟨c5, t5, e5, i5⟩ := ruleFuzzy_ext ratio sig row
    (ruleMfr ratio sig row (ruleModel sig row (ruleSerial sig row (ruleId sig row (0, [])))))
  refine ⟨c1 + c2 + c3 + c4 + c5, t1 ++ t2 ++ t3 ++ t4 ++ t5, ?_, ?_⟩
  · rw [e5, e4, e3, e2, e1]
    simp only [Prod.mk.injEq]
    constructor
    · omega
    · simp [List.append_assoc]
  · constructor
    · intro h0
      have : c1 = 0 ∧ c2 = 0 ∧ c3 = 0 ∧ c4 = 0 ∧ c5 = 0 := by omega
      obtain ⟨z1, z2, z3, z4, z5⟩ := this
      rw [i1.mp z1, i2.mp z2, i3.mp z3, i4.mp z4, i5.mp z5]
      rfl
    · intro ht
      have hz : t1 = [] ∧ t2 = [] ∧ t3 = [] ∧ t4 = [] ∧ t5 = [] := by
        simpa [List.append_eq_nil] using ht
      obtain ⟨z1, z2, z3, z4, z5⟩ := hz
      have := i1.mpr z1
      have := i2.mpr z2
      have := i3.mpr z3
      have := i4.mpr z4
      have := i5.mpr z5
      omega

/-- Appending a reason that is neither model tag preserves the combined
model-reason count. -/
lemma count2_append_zero (l : List String) (x : String)
    (hx1 : ([x] : List String).count "model_match" = 0)
    (hx2 : ([x] : List String).count "model_partial" = 0) :
    (l ++ [x]).count "model_match" + (l ++ [x]).count "model_partial"
      = l.count "model_match" + l.count "model_partial" := by
  rw [List.count_append, List.count_append, hx1, hx2]
  omega

/-- The pre-hash rule chain emits at most one model reason in total. -/
lemma score_chain_count (ratio : String → String → Nat) (sig : Signals) (row : AssetRow) :
    (ruleFuzzy ratio sig row
        (ruleMfr ratio sig row
          (ruleModel sig row (ruleSerial sig row (ruleId sig row (0, [])))))).2.count "model_match"
      + (ruleFuzzy ratio sig row
          (ruleMfr ratio sig row
            (ruleModel sig row
              (ruleSerial sig row (ruleId sig row (0, [])))))).2.count "model_partial" ≤ 1 := by
  have c1 : (ruleId sig row (0, [])).2.count "model_match"
      + (ruleId sig row (0, [])).2.count "model_partial" = 0 := by
    rcases ruleId_spec sig row (0, []) with h | h <;> rw [h] <;> decide
  have c2 : (ruleSerial sig row (ruleId sig row (0, []))).2.count "model_match"
      + (ruleSerial sig row (ruleId sig row (0, []))).2.count "model_partial"
      = (ruleId sig row (0, [])).2.count "model_match"
        + (ruleId sig row (0, [])).2.count "model_partial" := by
    rcases ruleSerial_spec sig row (ruleId sig row (0, [])) with h | h
    · rw [h]
    · rw [h]
      exact count2_append_zero _ _ (by decide) (by decide)
  have c3 : (ruleModel sig row (ruleSerial sig row (ruleId sig row (0, [])))).2.count "model_match"
      + (ruleModel sig row (ruleSerial sig row (ruleId sig row (0, [])))).2.count "model_partial"
      ≤ (ruleSerial sig row (ruleId sig row (0, []))).2.count "model_match"
        + (ruleSerial sig row (ruleId sig row (0, []))).2.count "model_partial" + 1 := by
    rcases ruleModel_spec sig row (ruleSerial sig row (ruleId sig row (0, []))) with h | h | h
    · rw [h]; omega
    · rw [h]
      rw [List.count_append, List.count_append]
      have z1 : (["model_match"] : List String).count "model_match" = 1 := by decide
      have z2 : (["model_match"] : List String).count "model_partial" = 0 := by decide
      rw [z1, z2]
      omega
    · rw [h]
      rw [List.count_append, List.count_append]
      have z1 : (["model_partial"] : List String).count "model_match" = 0 := by decide
      have z2 : (["model_partial"] : List String).count "model_partial" = 1 := by decide
      rw [z1, z2]
      omega
  have c4 : (ruleMfr ratio sig row
        (ruleModel sig row (ruleSerial sig row (ruleId sig row (0, []))))).2.count "model_match"
      + (ruleMfr ratio sig row
          (ruleModel sig row (ruleSerial sig row (ruleId sig row (0, []))))).2.count "model_partial"
      = (ruleModel sig row (ruleSerial sig row (ruleId sig row (0, [])))).2.count "model_match"
        + (ruleModel sig row (ruleSerial sig row (ruleId sig row (0, [])))).2.count "model_partial" := by
    obtain ⟨k, hk⟩ := ruleMfr_spec ratio sig row
      (ruleModel sig row (ruleSerial sig row (ruleId sig row (0, []))))
    rw [hk]
    rw [List.count_append, List.count_append]
    have z0 : (("manufacturer" : String) == "model_match") = false := by decide
    have z0' : (("manufacturer" : String) == "model_partial") = false := by decide
    rw [List.count_replicate, List.count_replicate, z0, z0']
    simp
  have c5 : (ruleFuzzy ratio sig row
        (ruleMfr ratio sig row
          (ruleModel sig row (ruleSerial sig row (ruleId sig row (0, [])))))).2.count "model_match"
      + (ruleFuzzy ratio sig row
          (ruleMfr ratio sig row
            (ruleModel sig row
              (ruleSerial sig row (ruleId sig row (0, [])))))).2.count "model_partial"
      = (ruleMfr ratio sig row
          (ruleModel sig row (ruleSerial sig row (ruleId sig row (0, []))))).2.count "model_match"
        + (ruleMfr ratio sig row
            (ruleModel sig row
              (ruleSerial sig row (ruleId sig row (0, []))))).2.count "model_partial" := by
    rcases ruleFuzzy_spec ratio sig row
        (ruleMfr ratio sig row
          (ruleModel sig row (ruleSerial sig row (ruleId sig row (0, []))))) with h | ⟨n, h | h⟩
    · rw [h]
    · rw [h]
      refine count2_append_zero _ _ ?_ ?_
      · rw [List.count_eq_zero, List.mem_singleton]
        exact fun hx => fuzzyTag_ne_mm (toString n) hx.symm
      · rw [List.count_eq_zero, List.mem_singleton]
        exact fun hx => fuzzyTag_ne_mp (toString n) hx.symm
    · rw [h]
      refine count2_append_zero _ _ ?_ ?_
      · rw [List.count_eq_zero, List.mem_singleton]
        exact fun hx => fuzzyTag_ne_mm (toString n) hx.symm
      · rw [List.count_eq_zero, List.mem_singleton]
        exact fun hx => fuzzyTag_ne_mp (toString n) hx.symm
  omega

/-- Every successful `score_pre` result carries at most one model reason. -/
lemma score_pre_count (ratio : String → String → Nat) (fm : FileMeta) (row : AssetRow)
    (sig : Signals) (st : Nat × List String) (h : score_pre ratio fm row sig = .ok st) :
    st.2.count "model_match" + st.2.count "model_partial" ≤ 1 := by
  have hch := score_chain_count ratio sig row
  simp only [score_pre] at h
  cases hfc : folderCheck row.project fm.dir with
  | error e => rw [hfc] at h; simp at h
  | ok b =>
    rw [hfc] at h
    rw [Except.ok.injEq] at h
    cases b
    · simp only [Bool.false_eq_true, if_false] at h
      rw [← h]
      exact hch
    · simp only [if_true] at h
      rw [← h]
      calc ((ruleFuzzy ratio sig row
            (ruleMfr ratio sig row
              (ruleModel sig row (ruleSerial sig row (ruleId sig row (0, [])))))).2
              ++ ["folder_hint"]).count "model_match"
          + ((ruleFuzzy ratio sig row
              (ruleMfr ratio sig row
                (ruleModel sig row (ruleSerial sig row (ruleId sig row (0, [])))))).2
                ++ ["folder_hint"]).count "model_partial"
          = (ruleFuzzy ratio sig row
              (ruleMfr ratio sig row
                (ruleModel sig row
                  (ruleSerial sig row (ruleId sig row (0, [])))))).2.count "model_match"
            + (ruleFuzzy ratio sig row
                (ruleMfr ratio sig row
                  (ruleModel sig row
                    (ruleSerial sig row (ruleId sig row (0, [])))))).2.count "model_partial" :=
            count2_append_zero _ _ (by decide) (by decide)
        _ ≤ 1 := hch

/-- A successful `score_pre` result has score 0 exactly when it produced no
reasons. -/
lemma score_pre_zero_iff (ratio : String → String → Nat) (fm : FileMeta) (row : AssetRow)
    (sig : Signals) (st : Nat × List String) (h : score_pre ratio fm row sig = .ok st) :
    st.1 = 0 ↔ st.2 = [] := by
  obtain ⟨c, t, hchain, hiff⟩ := score_chain_ext ratio sig row
  simp only [score_pre] at h
  rw [hchain] at h
  cases hfc : folderCheck row.project fm.dir with
  | error e => rw [hfc] at h; simp at h
  | ok b =>
    rw [hfc] at h
    rw [Except.ok.injEq] at h
    cases b
    · simp only [Bool.false_eq_true, if_false] at h
      rw [← h]
      exact hiff
    · simp only [if_true] at h
      rw [← h]
      constructor
      · intro hx
        simp at hx
      · intro hx
        simp at hx

/-- `score_pre` never reads the asset's `file_hash` field. -/
lemma score_pre_filehash (ratio : String → String → Nat) (fm : FileMeta) (sig : Signals)
    (row : AssetRow) (v : PyVal) :
    score_pre ratio fm { row with file_hash := v } sig = score_pre ratio fm row sig := by
  cases row
  rfl

/-- C2: whenever the document hash was computed, is non-empty, and equals
the asset's stored `file_hash`, `score_candidate` returns at least 100, and
the hash rule is an override rather than an addition: the final score is
exactly `max` of the hash-free score and 100, whatever every other field
holds. -/
theorem C2_hash_override : ∀ (ratio : String → String → Nat) (fm : FileMeta) (row : AssetRow)
    (sig : Signals) (hs : String) (sc sc2 : Nat) (rs rs2 : List String),
    fm.hash = some hs → hs ≠ "" → row.file_hash = .vStr hs →
    score_candidate ratio fm row sig = .ok (sc, rs) →
    score_candidate ratio fm { row with file_hash := PyVal.vAbsent } sig = .ok (sc2, rs2) →
    100 ≤ sc ∧ sc = max sc2 100 := by
  intro ratio fm row sig hs sc sc2 rs rs2 hm hne hf h1 h2
  obtain ⟨a1, a2, a3, a4, a5, a6, a7, a8, a9⟩ := row
  change a9 = PyVal.vStr hs at hf
  subst hf
  have hrow : ({ (⟨a1, a2, a3, a4, a5, a6, a7, a8, PyVal.vStr hs⟩ : AssetRow) with
      file_hash := PyVal.vAbsent })
      = (⟨a1, a2, a3, a4, a5, a6, a7, a8, PyVal.vAbsent⟩ : AssetRow) := rfl
  rw [hrow] at h2
  have hc1 : hashCond fm ⟨a1, a2, a3, a4, a5, a6, a7, a8, PyVal.vStr hs⟩ = true := by
    unfold hashCond
    rw [hm]
    simp [hne]
  have hc2 : hashCond fm ⟨a1, a2, a3, a4, a5, a6, a7, a8, PyVal.vAbsent⟩ = false := by
    unfold hashCond
    rw [hm]
    simp
  cases hpre : score_pre ratio fm ⟨a1, a2, a3, a4, a5, a6, a7, a8, PyVal.vStr hs⟩ sig with
  | error e =>
    unfold score_candidate at h1
    rw [hpre] at h1
    simp at h1
  | ok st =>
    have hpre2 : score_pre ratio fm ⟨a1, a2, a3, a4, a5, a6, a7, a8, PyVal.vAbsent⟩ sig
        = .ok st := hpre
    unfold score_candidate at h1 h2
    rw [hpre, hc1] at h1
    rw [hpre2, hc2] at h2
    simp only [if_true, Bool.false_eq_true, if_false, Except.ok.injEq] at h1 h2
    have e1 : max st.1 100 = sc := congrArg Prod.fst h1
    have e2 : st.1 = sc2 := congrArg Prod.fst h2
    constructor
    · rw [← e1]
      exact le_max_right _ _
    · rw [← e1, ← e2]

/-- Witness for C2: a row whose stored hash equals the computed document
hash scores exactly 100 with the single reason `hash_match`, while the same
row without the hash scores 0. -/
theorem C2_hash_override_witness :
    score_candidate ratio0 fmW rowW sigEmpty = .ok (100, ["hash_match"]) ∧
    score_candidate ratio0 fmW { rowW with file_hash := PyVal.vAbsent } sigEmpty = .ok (0, []) ∧
    100 ≤ 100 ∧ (100 : Nat) = max 0 100 := by
  have h := C2_hash_override ratio0 fmW rowW sigEmpty "0abc" 100 0 ["hash_match"] []
    (by rfl) (by decide) (by rfl) (by rfl) (by rfl)
  exact ⟨by rfl, by rfl, h.1, h.2⟩

/-- C5: `score_candidate` emits at most one model reason per candidate:
`model_match` and `model_partial` never both occur, and neither occurs
twice. -/
theorem C5_model_exclusive : ∀ (ratio : String → String → Nat) (fm : FileMeta) (row : AssetRow)
    (sig : Signals) (sc : Nat) (rs : List String),
    score_candidate ratio fm row sig = .ok (sc, rs) →
    rs.count "model_match" + rs.count "model_partial" ≤ 1 := by
  intro ratio fm row sig sc rs h
  unfold score_candidate at h
  cases hpre : score_pre ratio fm row sig with
  | error e => rw [hpre] at h; simp at h
  | ok st =>
    rw [hpre] at h
    have hcount := score_pre_count ratio fm row sig st hpre
    rw [Except.ok.injEq] at h
    by_cases hc : hashCond fm row = true
    · rw [if_pos hc] at h
      injection h with hsc hrs
      rw [← hrs]
      calc (st.2 ++ ["hash_match"]).count "model_match"
            + (st.2 ++ ["hash_match"]).count "model_partial"
          = st.2.count "model_match" + st.2.count "model_partial" :=
            count2_append_zero _ _ (by decide) (by decide)
        _ ≤ 1 := hcount
    · rw [if_neg hc] at h
      rw [h] at hcount
      simpa using hcount

/-- Witness for C5: an exact model match emits exactly one model reason. -/
theorem C5_model_exclusive_witness :
    score_candidate ratio0 fm6 rowM sigM = .ok (20, ["model_match"]) ∧
    (["model_match"] : List String).count "model_match"
      + (["model_match"] : List String).count "model_partial" ≤ 1 := by
  refine ⟨by rfl, ?_⟩
  exact C5_model_exclusive ratio0 fm6 rowM sigM 20 ["model_match"] (by rfl)

/-- C10: a successful `score_candidate` run returns score 0 exactly when
its reason list is empty, and whenever the hash override fires the score is
at least 100. -/
theorem C10_zero_iff_no_reasons : ∀ (ratio : String → String → Nat) (fm : FileMeta)
    (row : AssetRow) (sig : Signals) (sc : Nat) (rs : List String),
    score_candidate ratio fm row sig = .ok (sc, rs) →
    (sc = 0 ↔ rs = []) ∧ (hashCond fm row = true → 100 ≤ sc) := by
  intro ratio fm row sig sc rs h
  unfold score_candidate at h
  cases hpre : score_pre ratio fm row sig with
  | error e => rw [hpre] at h; simp at h
  | ok st =>
    have hiff := score_pre_zero_iff ratio fm row sig st hpre
    rw [hpre] at h
    rw [Except.ok.injEq] at h
    by_cases hc : hashCond fm row = true
    · rw [if_pos hc] at h
      have e1 : max st.1 100 = sc := congrArg Prod.fst h
      have e2 : st.2 ++ ["hash_match"] = rs := congrArg Prod.snd h
      have hge : (100 : Nat) ≤ sc := by
        rw [← e1]
        exact le_max_right _ _
      refine ⟨?_, fun _ => hge⟩
      constructor
      · intro h0
        omega
      · intro hr
        rw [← e2] at hr
        simp at hr
    · rw [if_neg hc] at h
      have e1 : st.1 = sc := congrArg Prod.fst h
      have e2 : st.2 = rs := congrArg Prod.snd h
      refine ⟨by rw [← e1, ← e2]; exact hiff, fun hcc => absurd hcc hc⟩

/-- Witness for C10: the hash-matching row scores (100, one reason) — score
non-zero with a non-empty reason list and the hash guarantee 100 ≤ 100 —
and a row with every field missing scores (0, no reasons). -/
theorem C10_zero_iff_no_reasons_witness :
    score_candidate ratio0 fmW rowW sigEmpty = .ok (100, ["hash_match"]) ∧
    100 ≤ (100 : Nat) ∧
    score_candidate ratio0 fm6 row6ok sigEmpty = .ok (0, []) ∧
    ((0 : Nat) = 0 ↔ ([] : List String) = []) := by
  have h1 := C10_zero_iff_no_reasons ratio0 fmW rowW sigEmpty 100 ["hash_match"] (by rfl)
  have h2 := C10_zero_iff_no_reasons ratio0 fm6 row6ok sigEmpty 0 [] (by rfl)
  exact ⟨by rfl, h1.2 (by decide), by rfl, h2.1⟩

/-- C6: a row with every expected field missing is tolerated by
`score_candidate` (absent signals, score 0, no raise), but a row whose
`project` cell is a pandas `NaN` — the value a blank spreadsheet cell takes
after `DataFrame.to_dict` — makes `score_candidate` raise `AttributeError`
at `asset_row["project"].lower()` instead of contributing zero. -/
theorem C6_nan_project_raises :
    score_candidate ratio0 fm6 row6ok sigEmpty = .ok (0, []) ∧
    score_candidate ratio0 fm6 row6 sigEmpty
      = .error "AttributeError: float object has no attribute lower" :=
  ⟨rfl, rfl⟩

/-- Keeping the stripped non-blank lines by comprehension equals mapping
`strip` and then filtering out the blank results. -/
lemma filterMap_strip_eq (l : List String) :
    l.filterMap (fun ln => let s := pyStrip ln; if s != "" then some s else none)
      = (l.map pyStrip).filter (fun s => s != "") := by
  induction l with
  | nil => rfl
  | cons x xs ih =>
    by_cases h : (pyStrip x != "") = true
    · simp only [List.filterMap_cons, List.map_cons, List.filter_cons, h, if_true, ih]
    · have h' : (pyStrip x != "") = false := by simpa using h
      simp only [List.filterMap_cons, List.map_cons, List.filter_cons, h', if_false, ih,
        Bool.false_eq_true]

/-- C8 counterexample: on a text whose second non-blank line lies beyond
line 20, the code keeps only the non-blank lines among the first 20 lines,
while the spec's "first 20 non-blank lines" would also reach the later
line. -/
theorem C8_title_terms_counterexample :
    guess_title_terms t8 = "A" ∧ guess_title_terms_specWording t8 = "A B" ∧
    guess_title_terms t8 ≠ guess_title_terms_specWording t8 :=
  ⟨rfl, rfl, by decide⟩

/-- C8 amended: the title-terms phrase is computed from the non-blank lines
among the first 20 lines of the text (stripped), joined with spaces, with
the fixed stoplist removed case-insensitively and whitespace collapsed. -/
theorem C8_title_terms_amended : ∀ t : String,
    guess_title_terms t = guess_title_terms_amended t := by
  intro t
  simp only [guess_title_terms, guess_title_terms_amended]
  rw [filterMap_strip_eq]

/-- C9: the flat export table has exactly one row per (document, candidate)
pair, in order, each row carrying the file path, asset id and name, score,
reasons and the descriptive fields copied by `mkCsvRow`. -/
theorem C9_flat_export : ∀ results : List MatchResult,
    save_results_csv results = (docCandPairs results).map (fun p => mkCsvRow p.1 p.2) ∧
    (save_results_csv results).length
      = (results.map (fun r => r.top_candidates.length)).sum := by
  intro results
  constructor
  · unfold save_results_csv docCandPairs
    rw [List.map_flatMap]
    congr 1
    funext r
    rw [List.map_map]
    rfl
  · unfold save_results_csv
    rw [List.length_flatMap]
    have hfun : (List.length ∘ fun r : MatchResult =>
          List.map (fun c => mkCsvRow r c) r.top_candidates)
        = fun r : MatchResult => r.top_candidates.length := by
      funext r
      exact List.length_map _ _
    rw [hfun]

/-- C7: when the native text layer already yields at least 100 characters,
neither the pdfplumber fallback nor OCR runs, and the extracted text is the
native text unchanged. -/
theorem C7_fallback_guard : ∀ (src : PdfSource) (use_ocr : Bool) (maxp : Nat),
    100 ≤ (pdfNativeText src).length →
    pdfPlumberInvoked src = false ∧ pdfOcrInvoked src use_ocr = false ∧
    extract_text_pdf src use_ocr maxp = pdfNativeText src := by
  intro src use_ocr maxp h
  have hlt : ¬((pdfNativeText src).length < 100) := by omega
  have hdec : decide ((pdfNativeText src).length < 100) = false := decide_eq_false hlt
  have h2 : pdfText2 src = pdfNativeText src := by
    unfold pdfText2
    rw [if_neg hlt]
  have h1 : pdfPlumberInvoked src = false := by
    unfold pdfPlumberInvoked
    exact hdec
  have h3 : pdfOcrInvoked src use_ocr = false := by
    unfold pdfOcrInvoked
    rw [h2, hdec]
    simp
  refine ⟨h1, h3, ?_⟩
  simp only [extract_text_pdf]
  rw [h2, hdec]
  simp

/-- Witness for C7: a PDF whose native pass yields 120 characters skips
both fallback stages. -/
theorem C7_fallback_guard_witness :
    100 ≤ (pdfNativeText src7).length ∧
    pdfPlumberInvoked src7 = false ∧ pdfOcrInvoked src7 true = false ∧
    extract_text_pdf src7 true 5 = pdfNativeText src7 := by
  have h := C7_fallback_guard src7 true 5 (by decide)
  exact ⟨by decide, h.1, h.2.1, h.2.2⟩

/-- Two adjacent elements of a sorted-descending list are ordered and the
tail is sorted. -/
lemma sortedDesc_inv (a b : ScoredCand) (t : List ScoredCand)
    (h : sortedDesc (a :: b :: t) = true) :
    b.score ≤ a.score ∧ sortedDesc (b :: t) = true := by
  simpa [sortedDesc] using h

/-- Prepending an element at least as large as the head keeps a list
sorted descending. -/
lemma sortedDesc_cons_of (a : ScoredCand) (l : List ScoredCand)
    (h1 : ∀ b, l.head? = some b → b.score ≤ a.score) (h2 : sortedDesc l = true) :
    sortedDesc (a :: l) = true := by
  cases l with
  | nil => rfl
  | cons b t =>
    have hb := h1 b rfl
    simp [sortedDesc, hb, h2]

/-- The head of an insertion is the inserted element or the old head. -/
lemma insertScoreDesc_head (c : ScoredCand) (l : List ScoredCand) (b : ScoredCand)
    (hb : (insertScoreDesc c l).head? = some b) :
    b.score ≤ c.score ∨ l.head? = some b := by
  cases l with
  | nil =>
    left
    have hcb : c = b := by simpa [insertScoreDesc] using hb
    rw [← hcb]
  | cons x xs =>
    by_cases hc : c.score < x.score
    · right
      have hxb : x = b := by simpa [insertScoreDesc, hc] using hb
      rw [← hxb]
      rfl
    · left
      have hcb : c = b := by simpa [insertScoreDesc, hc] using hb
      rw [← hcb]

/-- Inserting into a sorted-descending list keeps it sorted. -/
lemma insertScoreDesc_sorted (c : ScoredCand) : ∀ l : List ScoredCand,
    sortedDesc l = true → sortedDesc (insertScoreDesc c l) = true := by
  intro l
  induction l with
  | nil => intro _; rfl
  | cons x xs ih =>
    intro h
    have hxs : sortedDesc xs = true := by
      cases xs with
      | nil => rfl
      | cons y t => exact (sortedDesc_inv x y t h).2
    by_cases hc : c.score < x.score
    · rw [show insertScoreDesc c (x :: xs) = x :: insertScoreDesc c xs from by
        simp [insertScoreDesc, hc]]
      apply sortedDesc_cons_of
      · intro b hb
        rcases insertScoreDesc_head c xs b hb with h1 | h1
        · omega
        · cases xs with
          | nil => simp at h1
          | cons y t =>
            have hyx := (sortedDesc_inv x y t h).1
            have hyb : y = b := by simpa using h1
            rw [← hyb]
            exact hyx
      · exact ih hxs
    · rw [show insertScoreDesc c (x :: xs) = c :: x :: xs from by
        simp [insertScoreDesc, hc]]
      apply sortedDesc_cons_of
      · intro b hb
        have hxb : x = b := by simpa using hb
        rw [← hxb]
        omega
      · exact h

/-- Inserting either prepends to the per-score slice (when the score
matches) or leaves every per-score slice unchanged. -/
lemma insertScoreDesc_filter (c : ScoredCand) (s : Nat) : ∀ l : List ScoredCand,
    (insertScoreDesc c l).filter (fun x => x.score == s)
      = if c.score == s then c :: l.filter (fun x => x.score == s)
        else l.filter (fun x => x.score == s) := by
  intro l
  induction l with
  | nil =>
    by_cases h : (c.score == s) = true <;>
      simp [insertScoreDesc, List.filter_cons, h]
  | cons x xs ih =>
    by_cases hc : c.score < x.score
    · rw [show insertScoreDesc c (x :: xs) = x :: insertScoreDesc c xs from by
        simp [insertScoreDesc, hc]]
      rw [List.filter_cons, ih, List.filter_cons]
      by_cases hx : (x.score == s) = true <;> by_cases hcs : (c.score == s) = true <;>
        first
        | (exfalso
           have h1 : x.score = s := by simpa using hx
           have h2 : c.score = s := by simpa using hcs
           omega)
        | simp [hx, hcs]
    · rw [show insertScoreDesc c (x :: xs) = c :: x :: xs from by
        simp [insertScoreDesc, hc]]
      rw [List.filter_cons]

/-- The stable sort produces a list sorted by descending score. -/
lemma sortScoreDesc_sorted : ∀ l : List ScoredCand, sortedDesc (sortScoreDesc l) = true := by
  intro l
  induction l with
  | nil => rfl
  | cons c cs ih => exact insertScoreDesc_sorted c (sortScoreDesc cs) ih

/-- The stable sort leaves every per-score slice in input order. -/
lemma sortScoreDesc_filter : ∀ (l : List ScoredCand) (s : Nat),
    (sortScoreDesc l).filter (fun x => x.score == s) = l.filter (fun x => x.score == s) := by
  intro l
  induction l with
  | nil => intro s; rfl
  | cons c cs ih =>
    intro s
    show (insertScoreDesc c (sortScoreDesc cs)).filter _ = _
    rw [insertScoreDesc_filter, ih, List.filter_cons]

/-- C4: the ranked list is sorted by descending score; candidates of equal
score keep their registry order (each per-score slice of the sorted list
equals the same slice of the input, which is in registry order); and the
orchestrator keeps exactly the first 5 of the stably sorted candidate
list. -/
theorem C4_ranking_stable :
    (∀ l : List ScoredCand, sortedDesc (sortScoreDesc l) = true ∧
      ∀ s : Nat, (sortScoreDesc l).filter (fun x => x.score == s)
        = l.filter (fun x => x.score == s)) ∧
    (∀ (env : DocEnv) (ratio : String → String → Nat) (assets : List AssetRow)
        (ch : Bool) (path : String) (r : MatchResult),
      processOne env ratio assets ch path = .ok r →
      ∃ meta signals scored, mapExcept (candOf ratio meta signals) assets = .ok scored ∧
        r.top_candidates = (sortScoreDesc scored).take 5) := by
  constructor
  · intro l
    exact ⟨sortScoreDesc_sorted l, fun s => sortScoreDesc_filter l s⟩
  · intro env ratio assets ch path r h
    simp only [processOne] at h
    split at h
    · exact absurd h (by simp)
    · split at h
      · exact absurd h (by simp)
      · split at h
        · exact absurd h (by simp)
        · split at h
          · exact absurd h (by simp)
          · split at h
            · exact absurd h (by simp)
            · rename_i scored hsc
              rw [Except.ok.injEq] at h
              refine ⟨_, _, scored, hsc, ?_⟩
              rw [← h]

/-- C4 witness fixtures: the metadata the orchestrator builds for the
`env3` document. -/
def meta3 : FileMeta :=
  { file_path := "plantA/doc.pdf", dir := pyDirname "plantA/doc.pdf"
    name := pyBasename "plantA/doc.pdf", size := 2048, mtime := 1700000000, hash := none }

/-- The signals the orchestrator computes for the `env3` document. -/
def sig3 : Signals :=
  { parse_identifiers "ABC-123456\nSerial No: SN12345" with
    title_terms := guess_title_terms "ABC-123456\nSerial No: SN12345" }

/-- The scored candidate list for the `env3` document. -/
def scored3 : List ScoredCand :=
  match mapExcept (candOf ratio0 meta3 sig3) assets3 with
  | .ok l => l
  | .error _ => []

/-- Witness for C4: the concrete `env3` run goes through the stable sort
and keeps its top 5, and the sort output is sorted descending. -/
theorem C4_ranking_stable_witness :
    processOne env3 ratio0 assets3 false "plantA/doc.pdf" = Except.ok scen3_result ∧
    scen3_result.top_candidates = (sortScoreDesc scored3).take 5 ∧
    sortedDesc (sortScoreDesc scored3) = true := by
  have hok : processOne env3 ratio0 assets3 false "plantA/doc.pdf" = Except.ok scen3_result := by
    rfl
  have hex := C4_ranking_stable.2 env3 ratio0 assets3 false "plantA/doc.pdf" scen3_result hok
  exact ⟨hok, by rfl, (C4_ranking_stable.1 scored3).1⟩

/-- C1: the orchestrator returns one result per input path in input order;
each entry depends only on its own path; a document whose processing raises
gets the error message and an empty candidate list; a document whose
processing succeeds gets its normal result untouched. -/
theorem C1_batch_isolation : ∀ (env : DocEnv) (ratio : String → String → Nat)
    (paths : List String) (assets : List AssetRow) (ch : Bool),
    (match_files_to_assets env ratio paths assets ch).length = paths.length ∧
    (∀ i : Nat, (match_files_to_assets env ratio paths assets ch)[i]?
        = (paths[i]?).map (handleDoc env ratio assets ch)) ∧
    (∀ path e, processOne env ratio assets ch path = .error e →
        (handleDoc env ratio assets ch path).error = some e ∧
        (handleDoc env ratio assets ch path).top_candidates = [] ∧
        (handleDoc env ratio assets ch path).file_path = path) ∧
    (∀ path r, processOne env ratio assets ch path = .ok r →
        handleDoc env ratio assets ch path = r) := by
  intro env ratio paths assets ch
  refine ⟨List.length_map _ _, ?_, ?_, ?_⟩
  · intro i
    simp [match_files_to_assets]
  · intro path e h
    unfold handleDoc
    rw [h]
    exact ⟨rfl, rfl, rfl⟩
  · intro path r h
    unfold handleDoc
    rw [h]

/-- Witness for C1: in a two-document batch whose first file is unreadable,
the first result carries the error with no candidates while the second
document is processed normally. -/
theorem C1_batch_isolation_witness :
    (match_files_to_assets envC1 ratio0 ["bad.pdf", "good.pdf"] assets3 false).length = 2 ∧
    (handleDoc envC1 ratio0 assets3 false "bad.pdf").error = some "OSError: unreadable" ∧
    (handleDoc envC1 ratio0 assets3 false "bad.pdf").top_candidates = [] ∧
    (handleDoc envC1 ratio0 assets3 false "good.pdf").error = none := by
  have h := C1_batch_isolation envC1 ratio0 ["bad.pdf", "good.pdf"] assets3 false
  have herr := h.2.2.1 "bad.pdf" "OSError: unreadable" (by rfl)
  exact ⟨h.1, herr.1, herr.2.1, by rfl⟩

/-- A successful per-document run has no error field and derives its
`auto_choice` from the head of `top_candidates` with the fixed threshold
80. -/
lemma processOne_auto_shape (env : DocEnv) (ratio : String → String → Nat)
    (assets : List AssetRow) (ch : Bool) (path : String) (r : MatchResult)
    (h : processOne env ratio assets ch path = .ok r) :
    r.error = none ∧
    r.auto_choice = (match r.top_candidates with
      | c :: _ => if 80 ≤ c.score then some c else none
      | [] => none) := by
  simp only [processOne] at h
  split at h
  · exact absurd h (by simp)
  · split at h
    · exact absurd h (by simp)
    · split at h
      · exact absurd h (by simp)
      · split at h
        · exact absurd h (by simp)
        · split at h
          · exact absurd h (by simp)
          · rw [Except.ok.injEq] at h
            rw [← h]
            exact ⟨rfl, rfl⟩

/-- C3 counterexample: with the caller's auto-confirm threshold configured
to 90 (a value the host UI slider allows), the claimed equivalence fails on
a concrete batch: the orchestrator sets `auto_choice` although the top
score 85 is below 90, because the threshold 80 is hard-coded in
`match_files_to_assets` and no threshold parameter exists. -/
theorem C3_counterexample :
    ¬ ((((match_files_to_assets env3 ratio0 ["plantA/doc.pdf"] assets3 false).headD
          dummyResult).auto_choice.isSome = true)
        ↔ 90 ≤ (((match_files_to_assets env3 ratio0 ["plantA/doc.pdf"] assets3
            false).headD dummyResult).top_candidates.headD dummyCand).score) := by
  decide

/-- C3 amended: `auto_choice` is set if and only if the top candidate's
score is at least the fixed threshold 80 (the threshold is not configurable
through the orchestrator), and when set it is the top candidate. -/
theorem C3_auto_choice_amended : ∀ (env : DocEnv) (ratio : String → String → Nat)
    (paths : List String) (assets : List AssetRow) (ch : Bool) (r : MatchResult),
    r ∈ match_files_to_assets env ratio paths assets ch →
    ((r.auto_choice.isSome = true ↔
        ∃ c, r.top_candidates.head? = some c ∧ 80 ≤ c.score) ∧
      (∀ c, r.auto_choice = some c → r.top_candidates.head? = some c)) := by
  intro env ratio paths assets ch r hr
  rw [match_files_to_assets] at hr
  obtain ⟨path, _, hEq⟩ := List.mem_map.mp hr
  rw [← hEq]
  unfold handleDoc
  cases h : processOne env ratio assets ch path with
  | error e => simp
  | ok r0 =>
    obtain ⟨_, ha⟩ := processOne_auto_shape env ratio assets ch path r0 h
    show (r0.auto_choice.isSome = true ↔
        ∃ c, r0.top_candidates.head? = some c ∧ 80 ≤ c.score) ∧
      ∀ c, r0.auto_choice = some c → r0.top_candidates.head? = some c
    cases htc : r0.top_candidates with
    | nil =>
      rw [htc] at ha
      simp [ha, htc]
    | cons c cs =>
      rw [htc] at ha
      have ha' : r0.auto_choice = if 80 ≤ c.score then some c else none := ha
      clear ha
      by_cases h80 : 80 ≤ c.score
      · rw [if_pos h80] at ha'
        constructor
        · constructor
          · intro _
            exact ⟨c, rfl, h80⟩
          · intro _
            rw [ha']
            rfl
        · intro c' hc'
          rw [ha'] at hc'
          injection hc' with hcc
          rw [← hcc]
          rfl
      · rw [if_neg h80] at ha'
        constructor
        · constructor
          · intro hx
            rw [ha'] at hx
            simp at hx
          · intro ⟨c', hc', h80'⟩
            injection hc' with hcc
            rw [← hcc] at h80'
            exact absurd h80' h80
        · intro c' hc'
          rw [ha'] at hc'
          exact absurd hc' (by simp)

/-- Witness for C3 (amended): in the concrete `env3` run, the top candidate
scores 85 ≥ 80, so `auto_choice` is set and equals the head of the ranked
list. -/
theorem C3_auto_choice_amended_witness :
    scen3_result.auto_choice.isSome = true ∧
    scen3_result.auto_choice = scen3_result.top_candidates.head? := by
  have h := C3_auto_choice_amended env3 ratio0 ["plantA/doc.pdf"] assets3 false scen3_result
    (List.mem_singleton.mpr rfl)
  constructor
  · exact h.1.mpr ⟨scen3_result.top_candidates.headD dummyCand, by decide, by decide⟩
  · have h2 := h.2 (scen3_result.top_candidates.headD dummyCand) (by decide)
    rw [h2]
    decide
